import Mathlib

/-!
Verification of the EQ_Dashboard market-data core.

Shallow embedding of:
- `EnhancedWebSocketManager` (backend/app/services/websocket_manager.py):
  the subscription registry (connect / subscribe_to_token /
  unsubscribe_from_token / disconnect / broadcast_market_data).
- `MarketDataService` (backend/app/services/market_data_service.py):
  the distribution engine and last-known-price cache.
- `MotilalService` (backend/app/services/motilal_service.py):
  the frame reassembler (`_process_websocket_message`), the packet
  dispatcher (`_parse_websocket_packets`) and the LTP decoder
  (`_parse_ltp_packet`).

Python dicts are modelled as functions into `Option`, Python sets as
`Finset`, byte strings as `List Nat`, and numeric prices as rationals
(bit-level float32 decoding is the boundary of the embedding: decoded
numeric field values are taken as inputs).
-/

abbrev ClientId := String
abbrev TokenSym := String

/-- WebSocket handles are opaque to the registry logic; an identifier
stands for the connection object. -/
abbrev WSHandle := Nat

/-- Pointwise update of a dict modelled as a function into `Option`;
`v = none` is deletion, `v = some x` is assignment. -/
def upd {α : Type} (f : String → Option α) (k : String) (v : Option α) :
    String → Option α :=
  fun x => if x = k then v else f x

theorem upd_same {α : Type} (f : String → Option α) (k : String) (v : Option α) :
    upd f k v k = v := by
  simp [upd]

theorem upd_ne {α : Type} (f : String → Option α) (k : String) (v : Option α)
    (x : String) (h : x ≠ k) : upd f k v x = f x := by
  simp [upd, h]

/-- State of `EnhancedWebSocketManager`: `active_connections`,
`client_subscriptions` (client id to set of token symbols) and
`token_subscribers` (token symbol to set of client ids). -/
structure Registry where
  active : ClientId → Option WSHandle
  clientSubs : ClientId → Option (Finset TokenSym)
  tokenSubs : TokenSym → Option (Finset ClientId)

/-- `EnhancedWebSocketManager.__init__`: all three dicts start empty. -/
def Registry.empty : Registry :=
  ⟨fun _ => none, fun _ => none, fun _ => none⟩

/-- `EnhancedWebSocketManager.connect`: stores the websocket under the
client id and installs a fresh empty subscription set for the client
(overwriting any existing entry). -/
def connect (R : Registry) (ws : WSHandle) (c : ClientId) : Registry :=
  { R with
    active := upd R.active c (some ws)
    clientSubs := upd R.clientSubs c (some ∅) }

/-- `EnhancedWebSocketManager.subscribe_to_token`: creates the client
entry if absent, adds the token to the client set, creates the token
entry if absent, adds the client to the token set. -/
def subscribe_to_token (R : Registry) (c : ClientId) (t : TokenSym) : Registry :=
  { R with
    clientSubs := upd R.clientSubs c (some (insert t ((R.clientSubs c).getD ∅)))
    tokenSubs := upd R.tokenSubs t (some (insert c ((R.tokenSubs t).getD ∅))) }

/-- The value returned by the Python method `subscribe_to_token`: the
method body has no return statement, so the call evaluates to None,
modelled as `none` in `Option Bool`. -/
def subscribe_to_token_return (_R : Registry) (_c : ClientId) (_t : TokenSym) :
    Option Bool :=
  none

/-- The pruning idiom `if not self.token_subscribers[t]: del ...`:
an emptied set is removed from the dict. -/
def prune (s : Finset ClientId) : Option (Finset ClientId) :=
  if s = ∅ then none else some s

/-- `EnhancedWebSocketManager.unsubscribe_from_token`: discards the
token from the client set if the client entry exists (the entry itself
is kept, possibly empty), discards the client from the token set if the
token entry exists and deletes the token entry when it empties. -/
def unsubscribe_from_token (R : Registry) (c : ClientId) (t : TokenSym) : Registry :=
  { R with
    clientSubs :=
      match R.clientSubs c with
      | some S => upd R.clientSubs c (some (S.erase t))
      | none => R.clientSubs
    tokenSubs :=
      match R.tokenSubs t with
      | some P => upd R.tokenSubs t (prune (P.erase c))
      | none => R.tokenSubs }

/-- `EnhancedWebSocketManager.disconnect`: if the client is connected,
drop it from the subscriber set of every token in its subscription set
(pruning emptied token entries), then delete its connection and its
subscription entry; otherwise do nothing. -/
def disconnect (R : Registry) (c : ClientId) : Registry :=
  match R.active c with
  | none => R
  | some _ =>
    let subscribed := (R.clientSubs c).getD ∅
    { active := upd R.active c none
      clientSubs := upd R.clientSubs c none
      tokenSubs := fun t =>
        if t ∈ subscribed then
          match R.tokenSubs t with
          | some P => prune (P.erase c)
          | none => none
        else R.tokenSubs t }

/-- One registry operation, as invoked on `EnhancedWebSocketManager`. -/
inductive RegOp where
  | connect (ws : WSHandle) (c : ClientId)
  | subscribe (c : ClientId) (t : TokenSym)
  | unsubscribe (c : ClientId) (t : TokenSym)
  | disconnect (c : ClientId)

def applyOp (R : Registry) : RegOp → Registry
  | .connect ws c => connect R ws c
  | .subscribe c t => subscribe_to_token R c t
  | .unsubscribe c t => unsubscribe_from_token R c t
  | .disconnect c => disconnect R c

def applyOps (R : Registry) (l : List RegOp) : Registry :=
  l.foldl applyOp R

/-- Forward inverse: a token recorded in a client subscription set has
the client in its subscriber set. -/
def InvFwd (R : Registry) : Prop :=
  ∀ c t S, R.clientSubs c = some S → t ∈ S →
    ∃ P, R.tokenSubs t = some P ∧ c ∈ P

/-- Backward inverse: a client recorded in a token subscriber set has
the token in its subscription set. -/
def InvBwd (R : Registry) : Prop :=
  ∀ t c P, R.tokenSubs t = some P → c ∈ P →
    ∃ S, R.clientSubs c = some S ∧ t ∈ S

/-- The token-to-subscribers map holds no empty set. -/
def NoEmptyTok (R : Registry) : Prop :=
  ∀ t, R.tokenSubs t ≠ some ∅

/-- The client-to-tokens map holds no empty set. -/
def NoEmptyClient (R : Registry) : Prop :=
  ∀ c, R.clientSubs c ≠ some ∅

/-- The invariant asserted by claim C2: mutual inverses and no empty
set present in either map. -/
def ClaimC2Inv (R : Registry) : Prop :=
  InvFwd R ∧ InvBwd R ∧ NoEmptyClient R ∧ NoEmptyTok R

/-- The part of the invariant the code actually maintains. -/
def RegInv (R : Registry) : Prop :=
  InvFwd R ∧ NoEmptyTok R

theorem prune_ne_some_empty (s : Finset ClientId) : prune s ≠ some ∅ := by
  unfold prune
  split_ifs with h
  · simp
  · simpa using h

theorem prune_eq_some (s P : Finset ClientId) (h : prune s = some P) :
    P = s ∧ s ≠ ∅ := by
  unfold prune at h
  split_ifs at h with hs
  · exact ⟨(Option.some_injective _ h).symm, hs⟩

theorem regInv_connect (R : Registry) (ws : WSHandle) (c : ClientId)
    (h : RegInv R) : RegInv (connect R ws c) := by
  obtain ⟨hf, hn⟩ := h
  refine ⟨?_, hn⟩
  intro c₀ t₀ S₀ hc ht
  by_cases hc₀ : c₀ = c
  · subst hc₀
    rw [connect] at hc
    simp only [upd_same] at hc
    cases hc
    simp at ht
  · rw [connect] at hc
    simp only at hc
    rw [upd_ne _ _ _ _ hc₀] at hc
    exact hf c₀ t₀ S₀ hc ht

theorem unsub_clientSubs_none (R : Registry) (c : ClientId) (t : TokenSym)
    (hS : R.clientSubs c = none) :
    (unsubscribe_from_token R c t).clientSubs = R.clientSubs := by
  unfold unsubscribe_from_token
  rw [hS]

theorem unsub_clientSubs_some (R : Registry) (c : ClientId) (t : TokenSym)
    (S : Finset TokenSym) (hS : R.clientSubs c = some S) :
    (unsubscribe_from_token R c t).clientSubs =
      upd R.clientSubs c (some (S.erase t)) := by
  unfold unsubscribe_from_token
  rw [hS]

theorem unsub_tokenSubs_none (R : Registry) (c : ClientId) (t : TokenSym)
    (hP : R.tokenSubs t = none) :
    (unsubscribe_from_token R c t).tokenSubs = R.tokenSubs := by
  unfold unsubscribe_from_token
  rw [hP]

theorem unsub_tokenSubs_some (R : Registry) (c : ClientId) (t : TokenSym)
    (P : Finset ClientId) (hP : R.tokenSubs t = some P) :
    (unsubscribe_from_token R c t).tokenSubs =
      upd R.tokenSubs t (prune (P.erase c)) := by
  unfold unsubscribe_from_token
  rw [hP]

theorem disconnect_not_active (R : Registry) (c : ClientId)
    (ha : R.active c = none) : disconnect R c = R := by
  unfold disconnect
  rw [ha]

theorem disconnect_clientSubs (R : Registry) (c : ClientId) (ws : WSHandle)
    (ha : R.active c = some ws) :
    (disconnect R c).clientSubs = upd R.clientSubs c none := by
  unfold disconnect
  rw [ha]

theorem disconnect_tokenSubs (R : Registry) (c : ClientId) (ws : WSHandle)
    (ha : R.active c = some ws) :
    (disconnect R c).tokenSubs = fun t =>
      if t ∈ (R.clientSubs c).getD ∅ then
        match R.tokenSubs t with
        | some P => prune (P.erase c)
        | none => none
      else R.tokenSubs t := by
  unfold disconnect
  rw [ha]

theorem regInv_subscribe (R : Registry) (c : ClientId) (t : TokenSym)
    (h : RegInv R) : RegInv (subscribe_to_token R c t) := by
  obtain ⟨hf, hn⟩ := h
  refine ⟨?_, ?_⟩
  · intro c₀ t₀ S₀ hc ht
    simp only [subscribe_to_token, upd] at hc ⊢
    by_cases hc₀ : c₀ = c
    · rw [if_pos hc₀] at hc
      injection hc with hcS
      by_cases ht₀ : t₀ = t
      · rw [if_pos ht₀]
        exact ⟨_, rfl, Finset.mem_insert.mpr (Or.inl hc₀)⟩
      · rw [if_neg ht₀]
        rw [← hcS] at ht
        rcases Finset.mem_insert.mp ht with h1 | h1
        · exact absurd h1 ht₀
        · rcases hS : R.clientSubs c with _ | S
          · rw [hS] at h1
            simp at h1
          · rw [hS] at h1
            simp only [Option.getD_some] at h1
            rw [hc₀]
            exact hf c t₀ S hS h1
    · rw [if_neg hc₀] at hc
      obtain ⟨P, hP, hcP⟩ := hf c₀ t₀ S₀ hc ht
      by_cases ht₀ : t₀ = t
      · rw [if_pos ht₀]
        rw [ht₀] at hP
        rw [hP]
        exact ⟨_, rfl, Finset.mem_insert.mpr (Or.inr hcP)⟩
      · rw [if_neg ht₀]
        exact ⟨P, hP, hcP⟩
  · intro t₀
    simp only [subscribe_to_token, upd]
    split_ifs with ht₀
    · simp
    · exact hn t₀

theorem regInv_unsubscribe (R : Registry) (c : ClientId) (t : TokenSym)
    (h : RegInv R) : RegInv (unsubscribe_from_token R c t) := by
  obtain ⟨hf, hn⟩ := h
  refine ⟨?_, ?_⟩
  · intro c₀ t₀ S₀ hc ht
    have key : (∃ P, R.tokenSubs t₀ = some P ∧ c₀ ∈ P) ∧ (t₀ = t → c₀ ≠ c) := by
      rcases hS : R.clientSubs c with _ | S
      · rw [unsub_clientSubs_none R c t hS] at hc
        refine ⟨hf c₀ t₀ S₀ hc ht, fun _ heq => ?_⟩
        rw [heq, hS] at hc
        cases hc
      · rw [unsub_clientSubs_some R c t S hS] at hc
        by_cases hc₀ : c₀ = c
        · rw [hc₀, upd_same] at hc
          injection hc with h2
          rw [← h2] at ht
          have ht₀ : t₀ ≠ t := Finset.ne_of_mem_erase ht
          have h1 : t₀ ∈ S := Finset.mem_of_mem_erase ht
          rw [hc₀]
          exact ⟨hf c t₀ S hS h1, fun heq _ => ht₀ heq⟩
        · rw [upd_ne _ _ _ _ hc₀] at hc
          exact ⟨hf c₀ t₀ S₀ hc ht, fun _ => hc₀⟩
    obtain ⟨⟨P', hP', hcP'⟩, hne⟩ := key
    rcases hPt : R.tokenSubs t with _ | P
    · rw [unsub_tokenSubs_none R c t hPt]
      exact ⟨P', hP', hcP'⟩
    · rw [unsub_tokenSubs_some R c t P hPt]
      by_cases ht₀ : t₀ = t
      · have hPP : P' = P := by
          rw [ht₀, hPt] at hP'
          exact (Option.some_injective _ hP').symm
        have hcne : c₀ ≠ c := hne ht₀
        have hmem : c₀ ∈ P.erase c := Finset.mem_erase.mpr ⟨hcne, hPP ▸ hcP'⟩
        refine ⟨P.erase c, ?_, hmem⟩
        rw [ht₀, upd_same]
        unfold prune
        rw [if_neg (Finset.ne_empty_of_mem hmem)]
      · rw [upd_ne _ _ _ _ ht₀]
        exact ⟨P', hP', hcP'⟩
  · intro t₀
    rcases hPt : R.tokenSubs t with _ | P
    · rw [unsub_tokenSubs_none R c t hPt]
      exact hn t₀
    · rw [unsub_tokenSubs_some R c t P hPt]
      by_cases ht₀ : t₀ = t
      · rw [ht₀, upd_same]
        exact prune_ne_some_empty _
      · rw [upd_ne _ _ _ _ ht₀]
        exact hn t₀

theorem regInv_disconnect (R : Registry) (c : ClientId)
    (h : RegInv R) : RegInv (disconnect R c) := by
  obtain ⟨hf, hn⟩ := h
  rcases ha : R.active c with _ | ws
  · rw [disconnect_not_active R c ha]
    exact ⟨hf, hn⟩
  · refine ⟨?_, ?_⟩
    · intro c₀ t₀ S₀ hc ht
      rw [disconnect_clientSubs R c ws ha] at hc
      have hc₀ : c₀ ≠ c := by
        intro heq
        rw [heq, upd_same] at hc
        cases hc
      rw [upd_ne _ _ _ _ hc₀] at hc
      obtain ⟨P, hP, hcP⟩ := hf c₀ t₀ S₀ hc ht
      rw [disconnect_tokenSubs R c ws ha]
      by_cases hmem : t₀ ∈ (R.clientSubs c).getD ∅
      · simp only [if_pos hmem, hP]
        have hm2 : c₀ ∈ P.erase c := Finset.mem_erase.mpr ⟨hc₀, hcP⟩
        refine ⟨P.erase c, ?_, hm2⟩
        unfold prune
        rw [if_neg (Finset.ne_empty_of_mem hm2)]
      · simp only [if_neg hmem]
        exact ⟨P, hP, hcP⟩
    · intro t₀
      rw [disconnect_tokenSubs R c ws ha]
      by_cases hmem : t₀ ∈ (R.clientSubs c).getD ∅
      · simp only [if_pos hmem]
        rcases hPt : R.tokenSubs t₀ with _ | P
        · simp [hPt]
        · simp only [hPt]
          exact prune_ne_some_empty _
      · simp only [if_neg hmem]
        exact hn t₀

theorem regInv_empty : RegInv Registry.empty := by
  constructor
  · intro c t S hc _
    cases hc
  · intro t
    simp [Registry.empty]

theorem regInv_applyOp (R : Registry) (op : RegOp) (h : RegInv R) :
    RegInv (applyOp R op) := by
  cases op with
  | connect ws c => exact regInv_connect R ws c h
  | subscribe c t => exact regInv_subscribe R c t h
  | unsubscribe c t => exact regInv_unsubscribe R c t h
  | disconnect c => exact regInv_disconnect R c h

theorem regInv_applyOps (l : List RegOp) (R : Registry) (h : RegInv R) :
    RegInv (applyOps R l) := by
  induction l generalizing R with
  | nil => exact h
  | cons op rest ih => exact ih (applyOp R op) (regInv_applyOp R op h)

theorem Registry.ext' (A B : Registry) (h1 : A.active = B.active)
    (h2 : A.clientSubs = B.clientSubs) (h3 : A.tokenSubs = B.tokenSubs) :
    A = B := by
  cases A
  cases B
  simp only [Registry.mk.injEq]
  exact ⟨h1, h2, h3⟩

/-- C2 counterexample: after connect(u1), subscribe(u1, T), connect(u1)
the client map holds an empty set for u1 while u1 still sits in the
subscriber set of T, so the maps are not mutual inverses and an empty
set is present rather than absent. -/
theorem C2_counterexample :
    ¬ ClaimC2Inv (applyOps Registry.empty
      [RegOp.connect 0 "u1", RegOp.subscribe "u1" "T", RegOp.connect 0 "u1"]) := by
  intro h
  obtain ⟨_, _, hne, _⟩ := h
  exact hne "u1" (by decide)

/-- C2 (amended): after every finite sequence of registry operations
from the empty registry, (i) any token in a client subscription set has
that client in its subscriber set, and (ii) the token-to-subscribers
map holds no empty set.  The reverse inclusion and the absence of empty
sets in the client-to-tokens map do not hold, because connect installs
(and on reconnect overwrites with) an empty client entry and
unsubscribe leaves emptied client entries in place. -/
theorem C2_registry_invariant (ops : List RegOp) :
    RegInv (applyOps Registry.empty ops) :=
  regInv_applyOps ops Registry.empty regInv_empty

/-- C4 counterexample: registering u1 for RELIANCE on the empty
registry, where no subscriber exists, does not return true: the
method returns None, never a boolean. -/
theorem C4_counterexample :
    ¬ ∃ b : Bool,
      subscribe_to_token_return Registry.empty "u1" "RELIANCE" = some b ∧
      (b = true ↔ (Registry.empty.tokenSubs "RELIANCE").getD ∅ = ∅) := by
  rintro ⟨b, hb, -⟩
  simp [subscribe_to_token_return] at hb

/-- C4 (amended): subscribe records both links (the client lands in the
token subscriber set and the token in the client subscription set), but
the method body has no return statement, so the call returns None and
carries no first-subscriber signal. -/
theorem C4_subscribe_links_no_return (R : Registry) (c : ClientId) (t : TokenSym) :
    subscribe_to_token_return R c t = none ∧
    c ∈ (((subscribe_to_token R c t).tokenSubs t).getD ∅) ∧
    t ∈ (((subscribe_to_token R c t).clientSubs c).getD ∅) := by
  refine ⟨rfl, ?_, ?_⟩ <;>
    simp [subscribe_to_token, upd_same]

/-- C5 counterexample: on the empty registry, subscribe(u1, T) followed
by unsubscribe(u1, T) leaves an empty subscription-set entry for u1 in
the client map, so the registry is not restored to its prior state. -/
theorem C5_counterexample :
    unsubscribe_from_token (subscribe_to_token Registry.empty "u1" "T") "u1" "T" ≠
      Registry.empty := by
  intro h
  have h1 : (unsubscribe_from_token
      (subscribe_to_token Registry.empty "u1" "T") "u1" "T").clientSubs "u1" =
      some ∅ := by decide
  rw [h] at h1
  exact Option.noConfusion h1

/-- C5 (amended): subscribe then unsubscribe for the same pair restores
the registry exactly, provided the client already has an entry in the
client map, the token is not in that client entry, and the token either
has no entry or has a nonempty subscriber set not containing the
client.  Without the client-entry hypothesis, a leftover empty client
entry remains (see the counterexample). -/
theorem C5_roundtrip_restores (R : Registry) (c : ClientId) (t : TokenSym)
    (hc : ∃ S, R.clientSubs c = some S ∧ t ∉ S)
    (ht : R.tokenSubs t = none ∨
      ∃ P, R.tokenSubs t = some P ∧ c ∉ P ∧ P ≠ ∅) :
    unsubscribe_from_token (subscribe_to_token R c t) c t = R := by
  obtain ⟨S, hS, htS⟩ := hc
  have h1 : (subscribe_to_token R c t).clientSubs c = some (insert t S) := by
    simp [subscribe_to_token, upd_same, hS]
  have hP1 : (subscribe_to_token R c t).tokenSubs t =
      some (insert c ((R.tokenSubs t).getD ∅)) := by
    simp [subscribe_to_token, upd_same]
  refine Registry.ext' _ _ rfl ?_ ?_
  · funext x
    rw [unsub_clientSubs_some _ c t _ h1]
    by_cases hx : x = c
    · rw [hx, upd_same, Finset.erase_insert htS]
      exact hS.symm
    · rw [upd_ne _ _ _ _ hx]
      show upd R.clientSubs c _ x = R.clientSubs x
      exact upd_ne _ _ _ _ hx
  · funext x
    rw [unsub_tokenSubs_some _ c t _ hP1]
    by_cases hx : x = t
    · rw [hx, upd_same]
      rcases ht with h0 | ⟨P, hPt, hcP, hPne⟩
      · rw [h0]
        simp only [Option.getD_none]
        rw [Finset.erase_insert (Finset.not_mem_empty c)]
        simp [prune]
      · rw [hPt]
        simp only [Option.getD_some]
        rw [Finset.erase_insert hcP]
        unfold prune
        rw [if_neg hPne]
    · rw [upd_ne _ _ _ _ hx]
      show upd R.tokenSubs t _ x = R.tokenSubs x
      exact upd_ne _ _ _ _ hx

/-- A registry holding one tracked but subscription-free client and
nothing else; used to instantiate hypotheses on concrete inputs. -/
def sampleRegistry : Registry :=
  ⟨fun _ => none, fun x => if x = "u1" then some ∅ else none, fun _ => none⟩

theorem C5_roundtrip_restores_witness :
    (∃ S, sampleRegistry.clientSubs "u1" = some S ∧ "T" ∉ S) ∧
    (sampleRegistry.tokenSubs "T" = none ∨
      ∃ P, sampleRegistry.tokenSubs "T" = some P ∧ "u1" ∉ P ∧ P ≠ ∅) ∧
    unsubscribe_from_token (subscribe_to_token sampleRegistry "u1" "T") "u1" "T" =
      sampleRegistry :=
  ⟨⟨∅, rfl, Finset.not_mem_empty _⟩, Or.inl rfl,
    C5_roundtrip_restores sampleRegistry "u1" "T"
      ⟨∅, rfl, Finset.not_mem_empty _⟩ (Or.inl rfl)⟩

/-- C10: disconnecting a client id with no active connection changes
nothing: the connection map, the client map and the token map are all
left exactly as they were. -/
theorem C10_disconnect_unknown_noop (R : Registry) (c : ClientId)
    (h : R.active c = none) : disconnect R c = R :=
  disconnect_not_active R c h

theorem C10_disconnect_unknown_noop_witness :
    Registry.empty.active "u1" = none ∧
    disconnect Registry.empty "u1" = Registry.empty :=
  ⟨rfl, C10_disconnect_unknown_noop Registry.empty "u1" rfl⟩

/-! ## Distribution engine (`MarketDataService`) and delivery
(`EnhancedWebSocketManager.broadcast_market_data`) -/

/-- `EnhancedWebSocketManager.broadcast_market_data` together with
`broadcast_to_clients`: if the token has no subscriber entry, return
without any external write; otherwise the message is sent to every
subscribed client that currently has an active connection (the
`send_text` call on the connection object is the external delivery
boundary).  The result is the set of clients the delivery capability is
invoked for. -/
def broadcast_market_data (R : Registry) (t : TokenSym) : Finset ClientId :=
  match R.tokenSubs t with
  | none => ∅
  | some subs => subs.filter (fun c => (R.active c).isSome)

/-- Reference-data row used by `MarketDataService.token_cache`
(fields read by the distribution engine). -/
structure Token where
  token_id : Int
  symbol : TokenSym
  exchange : String
  ltp : ℚ
deriving DecidableEq

/-- A market-data dict as consumed by
`MarketDataService.handle_market_data`; each field models one dict key
(`none` = key absent): `scrip_code`, `type`, `ltp_rate`.  Payload keys
not read by the cache or routing logic are elided. -/
structure MDPacket where
  scrip_code : Option Int
  ptype : Option String
  ltp_rate : Option ℚ
deriving DecidableEq

/-- `MarketDataService` state: the token cache (scrip code to token)
and the last-known-price cache `last_prices`. -/
structure MDState where
  token_cache : List (Int × Token)
  last_prices : TokenSym → Option ℚ

/-- `self.token_cache.get(scrip_code)`. -/
def cacheGet (tc : List (Int × Token)) (sc : Int) : Option Token :=
  (tc.find? (fun e => e.1 == sc)).map (fun e => e.2)

/-- The linear search `for t in self.token_cache.values(): if t.symbol == ...`. -/
def findTokenBySymbol (tc : List (Int × Token)) (sym : TokenSym) : Option Token :=
  (tc.find? (fun e => e.2.symbol == sym)).map (fun e => e.2)

/-- One iteration of `MarketDataService.handle_market_data` for a
single packet: skip when the `scrip_code` key is missing or the scrip
resolves to no cached token; update `last_prices` only when the packet
type is LTP and the rate is positive; then broadcast to the
subscribers of the resolved symbol.  Returns the new state and the set
of clients delivered to (the database write is an external
collaborator and is elided). -/
def handle_packet (S : MDState) (R : Registry) (p : MDPacket) :
    MDState × Finset ClientId :=
  match p.scrip_code with
  | none => (S, ∅)
  | some sc =>
    match cacheGet S.token_cache sc with
    | none => (S, ∅)
    | some tok =>
      (if p.ptype = some "LTP" ∧ 0 < p.ltp_rate.getD 0 then
        { S with last_prices := upd S.last_prices tok.symbol (some (p.ltp_rate.getD 0)) }
       else S,
       broadcast_market_data R tok.symbol)

/-- The `data` object inside a successful REST LTP response
(`ltp` is in paisa, `get("ltp", 0)` defaulting handled by the caller). -/
structure LtpApiData where
  ltp : ℚ
  volume : Int
deriving DecidableEq

/-- A REST LTP response as read by `periodic_price_updates`:
`status` string and the optional `data` object. -/
structure LtpApiResponse where
  status : String
  data : Option LtpApiData
deriving DecidableEq

/-- One iteration of the inner loop of
`MarketDataService.periodic_price_updates` for one token symbol with
the fetched response: if the symbol resolves to a cached token, the
response status is SUCCESS with a data object, and the paisa-to-rupee
converted price is positive, store it in `last_prices`. -/
def periodic_price_update (S : MDState) (sym : TokenSym)
    (resp : LtpApiResponse) : MDState :=
  match findTokenBySymbol S.token_cache sym with
  | none => S
  | some _ =>
    if resp.status = "SUCCESS" ∧ resp.data.isSome then
      if 0 < (resp.data.map LtpApiData.ltp).getD 0 / 100 then
        { S with
          last_prices := upd S.last_prices sym
            (some ((resp.data.map LtpApiData.ltp).getD 0 / 100)) }
      else S
    else S

/-- `MarketDataService.update_token_cache` body effect: the token
cache is replaced wholesale from the database. -/
def update_token_cache (S : MDState) (tc : List (Int × Token)) : MDState :=
  { S with token_cache := tc }

/-- `MarketDataService.get_current_price`: stored price or default 0.0. -/
def get_current_price (S : MDState) (sym : TokenSym) : ℚ :=
  (S.last_prices sym).getD 0

/-- `MarketDataService.__init__`: empty token cache, empty price cache. -/
def MDState.initial : MDState :=
  ⟨[], fun _ => none⟩

/-- The operations of the distribution engine that touch its state. -/
inductive MDOp where
  | handle (R : Registry) (p : MDPacket)
  | poll (sym : TokenSym) (resp : LtpApiResponse)
  | refreshCache (tc : List (Int × Token))

def applyMDOp (S : MDState) : MDOp → MDState
  | .handle R p => (handle_packet S R p).1
  | .poll sym resp => periodic_price_update S sym resp
  | .refreshCache tc => update_token_cache S tc

def applyMDOps (S : MDState) (l : List MDOp) : MDState :=
  l.foldl applyMDOp S

/-- Every price held in the last-known-price cache is positive. -/
def PricesPos (S : MDState) : Prop :=
  ∀ sym v, S.last_prices sym = some v → 0 < v

theorem handle_packet_fst (S : MDState) (R : Registry) (p : MDPacket)
    (sc : Int) (tok : Token) (hsc : p.scrip_code = some sc)
    (hres : cacheGet S.token_cache sc = some tok) :
    (handle_packet S R p).1 =
      if p.ptype = some "LTP" ∧ 0 < p.ltp_rate.getD 0 then
        { S with last_prices := upd S.last_prices tok.symbol (some (p.ltp_rate.getD 0)) }
      else S := by
  unfold handle_packet
  simp only [hsc, hres]

theorem handle_packet_snd (S : MDState) (R : Registry) (p : MDPacket)
    (sc : Int) (tok : Token) (hsc : p.scrip_code = some sc)
    (hres : cacheGet S.token_cache sc = some tok) :
    (handle_packet S R p).2 = broadcast_market_data R tok.symbol := by
  unfold handle_packet
  simp only [hsc, hres]

theorem handle_packet_skip (S : MDState) (R : Registry) (p : MDPacket)
    (h : p.scrip_code = none ∨
      ∃ sc, p.scrip_code = some sc ∧ cacheGet S.token_cache sc = none) :
    handle_packet S R p = (S, ∅) := by
  unfold handle_packet
  rcases h with h0 | ⟨sc, hsc, hres⟩
  · simp only [h0]
  · simp only [hsc, hres]

theorem pricesPos_handle (S : MDState) (R : Registry) (p : MDPacket)
    (h : PricesPos S) : PricesPos (handle_packet S R p).1 := by
  rcases hsc : p.scrip_code with _ | sc
  · rw [handle_packet_skip S R p (Or.inl hsc)]
    exact h
  · rcases hres : cacheGet S.token_cache sc with _ | tok
    · rw [handle_packet_skip S R p (Or.inr ⟨sc, hsc, hres⟩)]
      exact h
    · rw [handle_packet_fst S R p sc tok hsc hres]
      split_ifs with hcond
      · intro sym v hv
        have hv' : upd S.last_prices tok.symbol
            (some (p.ltp_rate.getD 0)) sym = some v := hv
        by_cases hsym : sym = tok.symbol
        · rw [hsym, upd_same] at hv'
          cases hv'
          exact hcond.2
        · rw [upd_ne _ _ _ _ hsym] at hv'
          exact h sym v hv'
      · exact h

theorem poll_update_found (S : MDState) (sym : TokenSym)
    (resp : LtpApiResponse) (tok : Token)
    (htok : findTokenBySymbol S.token_cache sym = some tok) :
    periodic_price_update S sym resp =
      if resp.status = "SUCCESS" ∧ resp.data.isSome then
        if 0 < (resp.data.map LtpApiData.ltp).getD 0 / 100 then
          { S with last_prices := upd S.last_prices sym (some ((resp.data.map LtpApiData.ltp).getD 0 / 100)) }
        else S
      else S := by
  unfold periodic_price_update
  simp only [htok]

theorem poll_update_not_found (S : MDState) (sym : TokenSym)
    (resp : LtpApiResponse)
    (htok : findTokenBySymbol S.token_cache sym = none) :
    periodic_price_update S sym resp = S := by
  unfold periodic_price_update
  simp only [htok]

theorem pricesPos_poll (S : MDState) (sym : TokenSym) (resp : LtpApiResponse)
    (h : PricesPos S) : PricesPos (periodic_price_update S sym resp) := by
  rcases htok : findTokenBySymbol S.token_cache sym with _ | tok
  · rw [poll_update_not_found S sym resp htok]
    exact h
  · rw [poll_update_found S sym resp tok htok]
    split_ifs with h1 h2
    · intro sym₀ v hv
      have hv' : upd S.last_prices sym
          (some ((resp.data.map LtpApiData.ltp).getD 0 / 100)) sym₀ = some v := hv
      by_cases hsym : sym₀ = sym
      · rw [hsym, upd_same] at hv'
        cases hv'
        exact h2
      · rw [upd_ne _ _ _ _ hsym] at hv'
        exact h sym₀ v hv'
    · exact h
    · exact h

theorem pricesPos_applyMDOps (l : List MDOp) (S : MDState) (h : PricesPos S) :
    PricesPos (applyMDOps S l) := by
  induction l generalizing S with
  | nil => exact h
  | cons op rest ih =>
    refine ih (applyMDOp S op) ?_
    cases op with
    | handle R p => exact pricesPos_handle S R p h
    | poll sym resp => exact pricesPos_poll S sym resp h
    | refreshCache tc => exact h

/-- C9: starting from the initial service state, after any sequence of
engine operations (packet handling, periodic REST polls, token-cache
refreshes) every cached price is strictly positive, because both write
paths guard on a positive value; `get_current_price` therefore returns
either a previously stored positive price or the default 0. -/
theorem C9_price_cache_positive (ops : List MDOp) (t : TokenSym) :
    PricesPos (applyMDOps MDState.initial ops) ∧
    (get_current_price (applyMDOps MDState.initial ops) t = 0 ∨
      ∃ v, (applyMDOps MDState.initial ops).last_prices t = some v ∧
        0 < v ∧ get_current_price (applyMDOps MDState.initial ops) t = v) := by
  have hpos : PricesPos (applyMDOps MDState.initial ops) :=
    pricesPos_applyMDOps ops MDState.initial (by intro sym v hv; cases hv)
  refine ⟨hpos, ?_⟩
  rcases hv : (applyMDOps MDState.initial ops).last_prices t with _ | v
  · left
    simp [get_current_price, hv]
  · right
    exact ⟨v, rfl, hpos t v hv, by simp [get_current_price, hv]⟩

theorem mem_broadcast_market_data (R : Registry) (t : TokenSym) (c : ClientId) :
    c ∈ broadcast_market_data R t ↔
      c ∈ (R.tokenSubs t).getD ∅ ∧ (R.active c).isSome := by
  unfold broadcast_market_data
  rcases h : R.tokenSubs t with _ | subs
  · simp
  · simp [Finset.mem_filter]

theorem broadcast_market_data_no_entry (R : Registry) (t : TokenSym)
    (h : R.tokenSubs t = none) : broadcast_market_data R t = ∅ := by
  unfold broadcast_market_data
  rw [h]

/-- Sample reference-data row: scrip code 1 resolves to symbol T. -/
def sampleToken : Token := ⟨1, "T", "NSE", 0⟩

/-- Sample engine state: one cached token, empty price cache. -/
def sampleMDState : MDState := ⟨[(1, sampleToken)], fun _ => none⟩

/-- A decoded LTP packet for scrip 1 with rate 100. -/
def ltpPacketT : MDPacket := ⟨some 1, some "LTP", some 100⟩

/-- A decoded DayOHLC packet for scrip 1. -/
def ohlcPacketT : MDPacket := ⟨some 1, some "DayOHLC", none⟩

/-- A successful REST LTP response carrying 5000 paisa. -/
def pollRespOK : LtpApiResponse := ⟨"SUCCESS", some ⟨5000, 10⟩⟩

/-- A registry where u1 is subscribed to T but has no active connection. -/
def subOnlyRegistry : Registry :=
  ⟨fun _ => none,
   fun x => if x = "u1" then some {"T"} else none,
   fun t => if t = "T" then some {"u1"} else none⟩

/-- A registry where u1 is subscribed to T and connected. -/
def connRegistry : Registry :=
  ⟨fun x => if x = "u1" then some 0 else none,
   fun x => if x = "u1" then some {"T"} else none,
   fun t => if t = "T" then some {"u1"} else none⟩

/-- C3 counterexample: u1 is subscribed to T, the LTP packet for scrip
1 resolves to T, yet no delivery is invoked for u1 because u1 has no
entry in the active-connections map: delivery is not equivalent to
subscription alone. -/
theorem C3_counterexample :
    ¬ (("u1" ∈ (handle_packet sampleMDState subOnlyRegistry ltpPacketT).2) ↔
        "u1" ∈ ((subOnlyRegistry.tokenSubs "T").getD ∅)) := by
  decide

/-- C3 (amended): for an LTP packet whose scrip code resolves through
the token cache, the delivery capability is invoked for a client iff
the client is subscribed to the resolved symbol and currently holds an
active connection; if the resolved symbol has no subscriber entry, no
external write occurs at all. -/
theorem C3_ltp_delivery (S : MDState) (R : Registry) (p : MDPacket)
    (sc : Int) (tok : Token) (c : ClientId)
    (_htype : p.ptype = some "LTP")
    (hsc : p.scrip_code = some sc)
    (hres : cacheGet S.token_cache sc = some tok) :
    (c ∈ (handle_packet S R p).2 ↔
      c ∈ (R.tokenSubs tok.symbol).getD ∅ ∧ (R.active c).isSome) ∧
    (R.tokenSubs tok.symbol = none → (handle_packet S R p).2 = ∅) := by
  rw [handle_packet_snd S R p sc tok hsc hres]
  exact ⟨mem_broadcast_market_data R tok.symbol c,
    broadcast_market_data_no_entry R tok.symbol⟩

theorem C3_ltp_delivery_witness :
    ltpPacketT.ptype = some "LTP" ∧ ltpPacketT.scrip_code = some 1 ∧
    cacheGet sampleMDState.token_cache 1 = some sampleToken ∧
    (("u1" ∈ (handle_packet sampleMDState connRegistry ltpPacketT).2 ↔
        "u1" ∈ ((connRegistry.tokenSubs sampleToken.symbol).getD ∅) ∧
          (connRegistry.active "u1").isSome) ∧
      (connRegistry.tokenSubs sampleToken.symbol = none →
        (handle_packet sampleMDState connRegistry ltpPacketT).2 = ∅)) :=
  ⟨rfl, rfl, rfl,
    C3_ltp_delivery sampleMDState connRegistry ltpPacketT 1 sampleToken "u1"
      rfl rfl rfl⟩

/-- C7 counterexample: handling a decoded DayOHLC packet whose scrip
resolves through the token cache leaves the price cache unchanged
(refuting that DayOHLC updates it), while one iteration of the
periodic REST poll does change the price cache (refuting that every
operation other than packet handling preserves it). -/
theorem C7_counterexample :
    (handle_packet sampleMDState Registry.empty ohlcPacketT).1 = sampleMDState ∧
    periodic_price_update sampleMDState "T" pollRespOK ≠ sampleMDState := by
  refine ⟨rfl, ?_⟩
  intro h
  have htok : findTokenBySymbol sampleMDState.token_cache "T" = some sampleToken := rfl
  have hpos : 0 < (pollRespOK.data.map LtpApiData.ltp).getD 0 / 100 := by
    norm_num [pollRespOK]
  have h1 : (periodic_price_update sampleMDState "T" pollRespOK).last_prices "T" =
      some ((pollRespOK.data.map LtpApiData.ltp).getD 0 / 100) := by
    rw [poll_update_found sampleMDState "T" pollRespOK sampleToken htok,
      if_pos ⟨rfl, rfl⟩, if_pos hpos]
    simp [upd]
  rw [h] at h1
  exact Option.noConfusion h1

/-- C7 (amended): the price cache is written only when handling an LTP
packet with positive rate and by the periodic REST poll on a
successful response with positive converted price; handling a DayOHLC
packet or any other non-LTP packet leaves the cache unchanged, as does
a non-positive LTP rate and the token-cache refresh. -/
theorem C7_price_cache_updaters (S : MDState) (R : Registry) (p : MDPacket)
    (sym : TokenSym) (resp : LtpApiResponse) (tc : List (Int × Token))
    (tok : Token) :
    (p.ptype ≠ some "LTP" → (handle_packet S R p).1.last_prices = S.last_prices) ∧
    (¬ 0 < p.ltp_rate.getD 0 → (handle_packet S R p).1.last_prices = S.last_prices) ∧
    (update_token_cache S tc).last_prices = S.last_prices ∧
    (findTokenBySymbol S.token_cache sym = some tok →
      resp.status = "SUCCESS" → resp.data.isSome →
      0 < (resp.data.map LtpApiData.ltp).getD 0 / 100 →
      (periodic_price_update S sym resp).last_prices =
        upd S.last_prices sym (some ((resp.data.map LtpApiData.ltp).getD 0 / 100))) := by
  refine ⟨?_, ?_, rfl, ?_⟩
  · intro hne
    rcases hsc : p.scrip_code with _ | sc
    · rw [handle_packet_skip S R p (Or.inl hsc)]
    · rcases hres : cacheGet S.token_cache sc with _ | tok'
      · rw [handle_packet_skip S R p (Or.inr ⟨sc, hsc, hres⟩)]
      · rw [handle_packet_fst S R p sc tok' hsc hres,
          if_neg (fun hh => hne hh.1)]
  · intro hne
    rcases hsc : p.scrip_code with _ | sc
    · rw [handle_packet_skip S R p (Or.inl hsc)]
    · rcases hres : cacheGet S.token_cache sc with _ | tok'
      · rw [handle_packet_skip S R p (Or.inr ⟨sc, hsc, hres⟩)]
      · rw [handle_packet_fst S R p sc tok' hsc hres,
          if_neg (fun hh => hne hh.2)]
  · intro htok hst hdata hpos
    rw [poll_update_found S sym resp tok htok, if_pos ⟨hst, hdata⟩, if_pos hpos]

theorem C7_price_cache_updaters_witness :
    ohlcPacketT.ptype ≠ some "LTP" ∧
    (handle_packet sampleMDState Registry.empty ohlcPacketT).1.last_prices =
      sampleMDState.last_prices ∧
    (periodic_price_update sampleMDState "T" pollRespOK).last_prices =
      upd sampleMDState.last_prices "T"
        (some ((pollRespOK.data.map LtpApiData.ltp).getD 0 / 100)) :=
  ⟨by decide,
   (C7_price_cache_updaters sampleMDState Registry.empty ohlcPacketT "T"
      pollRespOK [] sampleToken).1 (by decide),
   (C7_price_cache_updaters sampleMDState Registry.empty ohlcPacketT "T"
      pollRespOK [] sampleToken).2.2.2 rfl rfl rfl (by norm_num [pollRespOK])⟩

/-! ## Frame codec (`MotilalService._parse_ltp_packet` and the
message-type dispatch of `_parse_websocket_packets`) -/

/-- Integer rounding with ties to even, as performed by the Python
built-in `round`. -/
def roundHalfEven (q : ℚ) : ℤ :=
  if q - ⌊q⌋ < 1/2 then ⌊q⌋
  else if 1/2 < q - ⌊q⌋ then ⌊q⌋ + 1
  else if ⌊q⌋ % 2 = 0 then ⌊q⌋ else ⌊q⌋ + 1

/-- Python `round(x, 2)`: round to 2 decimal places, ties to even. -/
def round2 (q : ℚ) : ℚ :=
  (roundHalfEven (100 * q) : ℚ) / 100

/-- The decoded LTP dict built by `_parse_ltp_packet`; field names
stand for the dict keys `Exchange`, `Scrip Code`, `Time`, `LTP_Rate`,
`LTP_Qty`, `LTP_Cumulative Qty`, `LTP_AvgTradePrice`,
`LTP_Open Interest`. -/
structure LtpPacket where
  exchangeName : String
  scripCode : Int
  timeStr : String
  ltpRate : ℚ
  ltpQty : Int
  ltpCumQty : Int
  ltpAvgTradePrice : ℚ
  ltpOpenInterest : Int
deriving DecidableEq

/-- The `exchange_names` dict of `_parse_ltp_packet` together with the
`.get(exchange, exchange)` fallback: unknown codes pass through
verbatim. -/
def exchange_names (exchange : String) (scrip : Int) : String :=
  if exchange = "N" then
    if scrip ≤ 34999 ∨ (888801 ≤ scrip ∧ scrip ≤ 888820) then "NSE" else "NSEFO"
  else if exchange = "B" then "BSE"
  else if exchange = "M" then "MCX"
  else if exchange = "D" then "NCDEX"
  else if exchange = "C" then "NSECD"
  else if exchange = "G" then "BSEFO"
  else exchange

/-- `MotilalService._parse_ltp_packet`: the body fields are taken
post-`struct.unpack` (the bit-level float32/int32 little-endian
decoding is the numeric boundary of the embedding); the rate and the
average trade price are rounded to 2 decimal places and the exchange
name is resolved from the code and scrip range. -/
def parse_ltp_packet (exchange : String) (scrip : Int) (timeStr : String)
    (rate : ℚ) (qty cumQty : Int) (avgPrice : ℚ) (oi : Int) : LtpPacket :=
  { exchangeName := exchange_names exchange scrip
    scripCode := scrip
    timeStr := timeStr
    ltpRate := round2 rate
    ltpQty := qty
    ltpCumQty := cumQty
    ltpAvgTradePrice := round2 avgPrice
    ltpOpenInterest := oi }

/-- Exchange-name resolution exactly as worded by the specification:
code N maps to NSE if the scrip is at most 34999 or lies in the range
888801 to 888820 and to NSEFO otherwise; B to BSE, M to MCX, D to
NCDEX, C to NSECD, G to BSEFO; any other code passes through
verbatim. -/
def specExchangeName (code : String) (scrip : Int) : String :=
  if code = "N" then
    if scrip ≤ 34999 ∨ (888801 ≤ scrip ∧ scrip ≤ 888820) then "NSE" else "NSEFO"
  else if code = "B" then "BSE"
  else if code = "M" then "MCX"
  else if code = "D" then "NCDEX"
  else if code = "C" then "NSECD"
  else if code = "G" then "BSEFO"
  else code

/-- C6: decoding a type-A frame resolves the exchange name exactly as
the specification words it, applies 2-decimal rounding to the rate and
the average trade price, and on the example frame (exchange N, scrip
2885, rate 123.45, qty 10) yields exchange NSE, scrip 2885, ltp
123.45, qty 10. -/
theorem C6_ltp_decode :
    (∀ e scrip ts rate qty cq ap oi,
      (parse_ltp_packet e scrip ts rate qty cq ap oi).exchangeName =
        specExchangeName e scrip ∧
      (parse_ltp_packet e scrip ts rate qty cq ap oi).ltpRate = round2 rate ∧
      (parse_ltp_packet e scrip ts rate qty cq ap oi).ltpAvgTradePrice =
        round2 ap) ∧
    ((parse_ltp_packet "N" 2885 "ts" (123.45 : ℚ) 10 500 123 0).exchangeName =
        "NSE" ∧
      (parse_ltp_packet "N" 2885 "ts" (123.45 : ℚ) 10 500 123 0).scripCode =
        2885 ∧
      (parse_ltp_packet "N" 2885 "ts" (123.45 : ℚ) 10 500 123 0).ltpRate =
        (123.45 : ℚ) ∧
      (parse_ltp_packet "N" 2885 "ts" (123.45 : ℚ) 10 500 123 0).ltpQty = 10) := by
  refine ⟨fun e scrip ts rate qty cq ap oi => ⟨rfl, rfl, rfl⟩, ?_, rfl, ?_, rfl⟩
  · norm_num [parse_ltp_packet, exchange_names]
  · show round2 (123.45 : ℚ) = (123.45 : ℚ)
    norm_num [round2, roundHalfEven]

/-- An observable action of `_parse_websocket_packets` on one frame:
either a `_broadcast_market_data(data_type, data)` call (payload
elided) or the heartbeat reply `_send_heartbeat_response`. -/
inductive FeedEvent where
  | market (dataType : String)
  | heartbeatReply
deriving DecidableEq

/-- The message-type dispatch of `_parse_websocket_packets` for one
30-byte frame, reduced to its type byte: A broadcasts LTP, B through F
broadcast MarketDepth, G broadcasts DayOHLC, the digit one triggers a
heartbeat reply, and any other type byte falls through the if/elif
chain with no action. -/
def process_frame (msgType : String) : List FeedEvent :=
  if msgType = "A" then [.market "LTP"]
  else if msgType = "B" ∨ msgType = "C" ∨ msgType = "D" ∨ msgType = "E" ∨
      msgType = "F" then [.market "MarketDepth"]
  else if msgType = "G" then [.market "DayOHLC"]
  else if msgType = "1" then [.heartbeatReply]
  else []

/-- `_parse_websocket_packets` over the frames of one message (each
frame reduced to its type byte): the per-frame actions in order. -/
def parse_websocket_packets (msgTypes : List String) : List FeedEvent :=
  (msgTypes.map process_frame).flatten

/-- C8 counterexample: a well-formed frame with the unknown type byte
Z produces no packet and no action at all — nothing is passed through
to downstream consumers, refuting that an Unknown packet is emitted. -/
theorem C8_counterexample : process_frame "Z" = ([] : List FeedEvent) := by
  decide

/-- C8 (amended): a frame whose type byte is none of A, B through F,
G, or the digit one is silently ignored: decoding raises no error and
emits nothing, and the session continues — the remaining frames of the
message are still processed exactly as without the unknown frame. -/
theorem C8_unknown_type_ignored (mt : String) (rest : List String)
    (hA : mt ≠ "A") (hB : mt ≠ "B") (hC : mt ≠ "C") (hD : mt ≠ "D")
    (hE : mt ≠ "E") (hF : mt ≠ "F") (hG : mt ≠ "G") (h1 : mt ≠ "1") :
    process_frame mt = [] ∧
    parse_websocket_packets (mt :: rest) = parse_websocket_packets rest := by
  have hpf : process_frame mt = [] := by
    unfold process_frame
    rw [if_neg hA, if_neg (by simp [hB, hC, hD, hE, hF]), if_neg hG, if_neg h1]
  exact ⟨hpf, by simp [parse_websocket_packets, hpf]⟩

theorem C8_unknown_type_ignored_witness :
    (("Z" : String) ≠ "A" ∧ ("Z" : String) ≠ "1") ∧
    process_frame "Z" = [] ∧
    parse_websocket_packets ["Z", "A"] = parse_websocket_packets ["A"] :=
  ⟨⟨by decide, by decide⟩,
    C8_unknown_type_ignored "Z" ["A"] (by decide) (by decide) (by decide)
      (by decide) (by decide) (by decide) (by decide) (by decide)⟩

/-! ## Frame reassembler (`MotilalService._process_websocket_message`) -/

/-- The slicing loop of `_parse_websocket_packets`:
`message[i:i+30]` for `i in range(0, len, 30)`, keeping only slices of
exactly 30 bytes. -/
def packet_slices (m : List Nat) : List (List Nat) :=
  ((List.range ((m.length + 29) / 30)).map
      (fun i => (m.drop (30 * i)).take 30)).filter
    (fun p => p.length == 30)

/-- `MotilalService._process_websocket_message`: if the incoming
chunk length is an exact multiple of 30 the chunk itself is sliced
into frames directly (without touching the queue); otherwise each byte
is appended to the queue and whenever the queue reaches 30 bytes it is
drained as one frame.  Returns the frames parsed and the new queue. -/
def feed_step (q : List Nat) (chunk : List Nat) : List (List Nat) × List Nat :=
  if chunk.length % 30 = 0 then
    (packet_slices chunk, q)
  else
    chunk.foldl
      (fun acc b =>
        if (acc.2 ++ [b]).length = 30 then (acc.1 ++ [acc.2 ++ [b]], [])
        else (acc.1, acc.2 ++ [b]))
      ([], q)

/-- A whole trace: chunks fed in order, starting from the empty queue,
collecting all frames emitted. -/
def feed_all (chunks : List (List Nat)) : List (List Nat) × List Nat :=
  chunks.foldl
    (fun acc ch =>
      ((acc.1 ++ (feed_step acc.2 ch).1), (feed_step acc.2 ch).2))
    ([], [])

/-- The 30-byte chunk holding bytes 2 through 31. -/
def mis_chunk : List Nat := (List.range 30).map (fun i => i + 2)

/-- C1 at the failing input: after feeding the single byte 1 (queued
as a residual) and then a 30-byte chunk, the reassembler emits the
new chunk as a frame and leaves the residual byte queued, so the
concatenation of emitted frames is bytes 2 through 31 instead of the
claimed prefix bytes 1 through 30 of the stream: frames are realigned
to the chunk, not to the stream. -/
theorem C1_reassembler_misaligns :
    (feed_all [[1], mis_chunk]).1 = [mis_chunk] ∧
    (feed_all [[1], mis_chunk]).2 = [1] ∧
    ¬ ((feed_all [[1], mis_chunk]).1.flatten =
        ([1] ++ mis_chunk).take (30 * (([1] ++ mis_chunk).length / 30))) := by
  decide
